import Mathlib

/-!
Shallow embedding of the amitytinder-backend repository (Express/Mongoose
dating backend): the user document model (src/models/user.js), the chat
document model (the chat schema file), the swipe/match engine, candidate
feed, pin toggling, daily login quota reset and connect-user routes
(src/routes/auth.js), and the chat routes (start chat, post message).

Mongo/Mongoose operations are modelled over association lists:
  - `$addToSet`  : append if not already a member;
  - `$pull`      : remove every occurrence;
  - `$inc`       : integer addition;
  - `findById`   : first entry with the given key;
  - `findByIdAndUpdate` : update every entry with the given key (keys are
    unique `_id`s in Mongo, so this coincides with updating the single doc).
Object ids are modelled as naturals; JWT auth, bcrypt and Cloudinary are
external collaborators and are not part of the verified logic.
-/

namespace AmityTinder

abbrev UserId := Nat

/-- The `gender` enum of the user schema (src/models/user.js). -/
inductive Gender
  | male
  | female
  | other
deriving DecidableEq, Repr

/-- The `interestedIn` enum of the user schema (src/models/user.js). -/
inductive InterestedIn
  | male
  | female
  | both
deriving DecidableEq, Repr

/-- A JavaScript `Date`, abstracted to the only two observations the code
makes of it: its local calendar date (`toDateString`) and its time within
that date. -/
structure DateT where
  day : Nat
  timeOfDay : Nat
deriving DecidableEq, Repr, Inhabited

/-- Models `Date.prototype.toDateString()`: two dates agree on it exactly
when they fall on the same local calendar date. -/
def DateT.toDateString (d : DateT) : Nat :=
  d.day

/-- The user document (src/models/user.js), restricted to the fields the
verified routes read or write.  Schema defaults are the field defaults. -/
structure UserDoc where
  name : Option String := none
  dob : Option Nat := none
  gender : Option Gender := none
  interestedIn : Option InterestedIn := none
  profilePicture : Option String := none
  swipeLimit : Int := 10
  spinLimit : Int := 5
  liked : List UserId := []
  disliked : List UserId := []
  «matches» : List UserId := []
  pinnedMatches : List UserId := []
  lastLogin : DateT := ⟨0, 0⟩
deriving DecidableEq, Repr, Inhabited

/-- The user collection: association list from `_id` to document. -/
abbrev DB := List (UserId × UserDoc)

/-- Mongoose `User.findById(id)`: the first document stored under `id`. -/
def findById (db : DB) (id : UserId) : Option UserDoc :=
  (db.find? (fun p => p.1 == id)).map (·.2)

/-- The effect of `User.findByIdAndUpdate(id, f)` on the collection: apply the
update to the documents stored under `id` (`_id` is unique in Mongo). -/
def updateById (db : DB) (id : UserId) (f : UserDoc → UserDoc) : DB :=
  db.map (fun p => if p.1 == id then (p.1, f p.2) else p)

/-- Mongo `$addToSet`: append unless already present. -/
def addToSet (l : List UserId) (x : UserId) : List UserId :=
  if x ∈ l then l else l ++ [x]

/-- Mongo `$pull` with an equality condition: remove every occurrence. -/
def pull (l : List UserId) (x : UserId) : List UserId :=
  l.filter (fun y => y ≠ x)

/-! ### Swipe/Match engine — `router.post('/swipe')` in src/routes/auth.js -/

/-- The request's `direction` field, after the route's
`['left','right'].includes(direction)` validation. -/
inductive Direction
  | left
  | right
deriving DecidableEq, Repr

/-- Outcome of the swipe route: 404 on missing target (right swipes only),
404 on missing current user, or 200 with the `mutual` flag. -/
inductive SwipeOutcome
  | targetNotFound
  | userNotFound
  | ok (isMutual : Bool)
deriving DecidableEq, Repr

/-- The two `findByIdAndUpdate` calls of the mutual-match branch
(src/routes/auth.js lines 350–358): each side gains the other in `matches`
and loses the other from `liked` and `disliked`. -/
def mutualMatchUpdate (db : DB) (currentUserId targetUserId : UserId) : DB :=
  let db1 := updateById db currentUserId fun u =>
    { u with
      «matches» := addToSet u.«matches» targetUserId
      liked := pull u.liked targetUserId
      disliked := pull u.disliked targetUserId }
  updateById db1 targetUserId fun u =>
    { u with
      «matches» := addToSet u.«matches» currentUserId
      liked := pull u.liked currentUserId
      disliked := pull u.disliked currentUserId }

/-- The `updateActions` object of the swipe route (src/routes/auth.js lines
370–376): a right swipe adds to `liked` and pulls from `disliked`; a left
swipe only adds to `disliked` (no pull from `liked`). -/
def swipeUpdateActions (direction : Direction) (targetUserId : UserId)
    (u : UserDoc) : UserDoc :=
  match direction with
  | .right =>
      { u with
        liked := addToSet u.liked targetUserId
        disliked := pull u.disliked targetUserId }
  | .left =>
      { u with disliked := addToSet u.disliked targetUserId }

/-- The non-mutual tail of the swipe route (lines 369–389): apply
`updateActions` via `findByIdAndUpdate` (404 if the current user is
missing, leaving the store untouched), then decrement `swipeLimit`. -/
def swipeFallthrough (db : DB) (currentUserId targetUserId : UserId)
    (direction : Direction) : DB × SwipeOutcome :=
  match findById db currentUserId with
  | none => (db, SwipeOutcome.userNotFound)
  | some _ =>
      let db1 := updateById db currentUserId
        (swipeUpdateActions direction targetUserId)
      let db2 := updateById db1 currentUserId fun u =>
        { u with swipeLimit := u.swipeLimit - 1 }
      (db2, SwipeOutcome.ok false)

/-- Route `router.post('/swipe')` (src/routes/auth.js lines 328–394).  A right
swipe first loads the target (404 if absent) and checks mutuality
(`targetUser.liked.includes(currentUserId)`); on a mutual like both sides
are updated and the actor's `swipeLimit` decremented, answering
`mutual:true`.  Otherwise, and for every left swipe, control falls through
to `swipeFallthrough`. -/
def swipe (db : DB) (currentUserId targetUserId : UserId)
    (direction : Direction) : DB × SwipeOutcome :=
  match direction with
  | .right =>
      match findById db targetUserId with
      | none => (db, SwipeOutcome.targetNotFound)
      | some targetUser =>
          if currentUserId ∈ targetUser.liked then
            let db2 := mutualMatchUpdate db currentUserId targetUserId
            let db3 := updateById db2 currentUserId fun u =>
              { u with swipeLimit := u.swipeLimit - 1 }
            (db3, SwipeOutcome.ok true)
          else
            swipeFallthrough db currentUserId targetUserId .right
  | .left => swipeFallthrough db currentUserId targetUserId .left

/-- Outcome of the spinwin route. -/
inductive SpinOutcome
  | invalidDirection
  | targetNotFound
  | userNotFound
  | ok (isMutual : Bool)
deriving DecidableEq, Repr

/-- Route `router.post('/spinwin')` (src/routes/auth.js lines 398–468).  A
spinner winner gets an unconditional mutual match (both updates run before
the null-check); otherwise the swipe semantics are replayed without any
`swipeLimit` decrement.  `direction` is optional in the request body and
validated only on the non-winner path. -/
def spinwin (db : DB) (currentUserId targetUserId : UserId)
    (isSpinnerWinner : Bool) (direction : Option Direction) :
    DB × SpinOutcome :=
  if isSpinnerWinner then
    let db2 := mutualMatchUpdate db currentUserId targetUserId
    if (findById db currentUserId).isNone ∨ (findById db targetUserId).isNone
    then (db2, SpinOutcome.userNotFound)
    else (db2, SpinOutcome.ok true)
  else
    match direction with
    | none => (db, SpinOutcome.invalidDirection)
    | some dir =>
        match dir with
        | .right =>
            match findById db targetUserId with
            | none => (db, SpinOutcome.targetNotFound)
            | some targetUser =>
                if currentUserId ∈ targetUser.liked then
                  (mutualMatchUpdate db currentUserId targetUserId, SpinOutcome.ok true)
                else
                  match findById db currentUserId with
                  | none => (db, SpinOutcome.userNotFound)
                  | some _ =>
                      (updateById db currentUserId
                        (swipeUpdateActions .right targetUserId), SpinOutcome.ok false)
        | .left =>
            match findById db currentUserId with
            | none => (db, SpinOutcome.userNotFound)
            | some _ =>
                (updateById db currentUserId
                  (swipeUpdateActions .left targetUserId), SpinOutcome.ok false)

/-! ### Connect-user — `router.post('/connect-user')` in src/routes/auth.js -/

/-- Outcome of the connect-user route (auth is handled upstream). -/
inductive ConnectOutcome
  | notFound
  | ok
deriving DecidableEq, Repr

/-- Route `router.post('/connect-user')` (src/routes/auth.js lines 539–568): load
winner and current user (400 if either is missing); if the current user's
id is not already in the winner's `matches`, push it and save the winner
document.  Nothing else is written. -/
def connectUser (db : DB) (currentUserId winnerId : UserId) :
    DB × ConnectOutcome :=
  match findById db winnerId, findById db currentUserId with
  | some winner, some _ =>
      if currentUserId ∈ winner.«matches» then (db, ConnectOutcome.ok)
      else
        (updateById db winnerId
          (fun _ => { winner with «matches» := winner.«matches» ++ [currentUserId] }),
         ConnectOutcome.ok)
  | _, _ => (db, ConnectOutcome.notFound)

/-! ### Pin toggling — `router.put('/pin-match')` in src/routes/auth.js -/

/-- Outcome of the pin-match route; the 200 responses carry the updated
`pinnedMatches` array. -/
inductive PinOutcome
  | notFound
  | unpinned (pinnedMatches : List UserId)
  | pinned (pinnedMatches : List UserId)
deriving DecidableEq, Repr

/-- Route `router.put('/pin-match')` (src/routes/auth.js lines 572–606): load the
current user and the target (404 if either is missing); then
`indexOf`/`splice` removes the first occurrence of the target from
`pinnedMatches` when present, and `push` appends it when absent.  Match
membership is never checked. -/
def pinMatch (db : DB) (currentUserId targetUserId : UserId) :
    DB × PinOutcome :=
  match findById db currentUserId, findById db targetUserId with
  | some currentUser, some _ =>
      if targetUserId ∈ currentUser.pinnedMatches then
        let newPinned := currentUser.pinnedMatches.erase targetUserId
        (updateById db currentUserId
          (fun _ => { currentUser with pinnedMatches := newPinned }),
         PinOutcome.unpinned newPinned)
      else
        let newPinned := currentUser.pinnedMatches ++ [targetUserId]
        (updateById db currentUserId
          (fun _ => { currentUser with pinnedMatches := newPinned }),
         PinOutcome.pinned newPinned)
  | _, _ => (db, PinOutcome.notFound)

/-! ### Daily quota reset — `router.post('/login')` in src/routes/auth.js -/

/-- The post-authentication portion of `router.post('/login')`
(src/routes/auth.js lines 128–140): when the stored `lastLogin` and the
current date differ on `toDateString`, raise `swipeLimit` to 20 and
`spinLimit` to 1 when below those values and store the current date as
`lastLogin`; on a same-date login the document is untouched. -/
def loginDailyReset (user : UserDoc) (currentDate : DateT) : UserDoc :=
  if user.lastLogin.toDateString ≠ currentDate.toDateString then
    let u1 := if user.swipeLimit < 20 then { user with swipeLimit := 20 } else user
    let u2 := if u1.spinLimit < 1 then { u1 with spinLimit := 1 } else u1
    { u2 with lastLogin := currentDate }
  else user

/-! ### Chat store — chat schema and the chat router (src/unnamed/part_000) -/

/-- A subdocument of the chat schema's `messages` array.  `createdAt`
defaults to the server clock and `readBy` to the empty list. -/
structure Message where
  sender : UserId
  content : String
  createdAt : Nat
  readBy : List UserId := []
deriving DecidableEq, Repr

/-- A chat document: two participants, an append-only message array and
`lastMessageAt` (defaulted to the server clock at creation). -/
structure ChatDoc where
  chatId : Nat
  participants : List UserId
  messages : List Message := []
  lastMessageAt : Nat
deriving DecidableEq, Repr

/-- The chat collection in insertion order (`findOne` returns the first
matching document). -/
abbrev ChatDB := List ChatDoc

/-- The `participants: { $all: [userId, targetUserId] }` filter of
`Chat.findOne`: both ids occur in the participants array, in any order. -/
def chatPairPred (userId targetUserId : UserId) (c : ChatDoc) : Bool :=
  decide (userId ∈ c.participants) && decide (targetUserId ∈ c.participants)

/-- Route `router.post('/start')` (src/unnamed/part_000 lines 55–81): return the
first chat whose participants contain both users, creating and appending a
fresh one (`participants: [userId, targetUserId]`, no messages) when none
exists.  `freshId` is the generated `_id` and `now` the server clock used
for the `lastMessageAt` default. -/
def startChat (cdb : ChatDB) (userId targetUserId : UserId)
    (freshId now : Nat) : ChatDB × ChatDoc :=
  match cdb.find? (chatPairPred userId targetUserId) with
  | some chat => (cdb, chat)
  | none =>
      let chat : ChatDoc :=
        { chatId := freshId
          participants := [userId, targetUserId]
          messages := []
          lastMessageAt := now }
      (cdb ++ [chat], chat)

/-- Outcome of the message route; the 200 response carries the last element
of the updated chat's `messages` array. -/
inductive PostOutcome
  | validationError
  | chatNotFound
  | ok (message : Option Message)
deriving DecidableEq, Repr

/-- Replace the first document matching `p` (Mongo `findOneAndUpdate`). -/
def updateFirst (p : ChatDoc → Bool) (f : ChatDoc → ChatDoc) :
    ChatDB → ChatDB
  | [] => []
  | c :: rest =>
      if p c then f c :: rest else c :: updateFirst p f rest

/-- JavaScript `String.prototype.trim()`: strip leading and trailing whitespace
(the route's `!content.trim()` test is true exactly when this is empty). -/
def jsTrim (s : String) : String :=
  ⟨((s.data.dropWhile Char.isWhitespace).reverse.dropWhile
      Char.isWhitespace).reverse⟩

/-- Route `router.post('/:chatId/message')` (src/unnamed/part_000 lines 87–121):
reject blank content (`!content.trim()`) with a 400 before touching the
store; otherwise `findOneAndUpdate` on `_id` and participant membership
pushes the message and sets `lastMessageAt`, and the response returns the
updated chat's last message.  (The `ObjectId.isValid` guard is vacuous
here, ids being naturals.) -/
def postMessage (cdb : ChatDB) (chatId : Nat) (userId : UserId)
    (content : String) (now : Nat) : ChatDB × PostOutcome :=
  if (jsTrim content).isEmpty then (cdb, PostOutcome.validationError)
  else
    let p : ChatDoc → Bool := fun c =>
      c.chatId == chatId && decide (userId ∈ c.participants)
    match cdb.find? p with
    | none => (cdb, PostOutcome.chatNotFound)
    | some c =>
        let c' : ChatDoc :=
          { c with
            messages := c.messages ++
              [{ sender := userId, content := content, createdAt := now,
                 readBy := [] }]
            lastMessageAt := now }
        (updateFirst p (fun _ => c') cdb, PostOutcome.ok c'.messages.getLast?)

/-! ### Candidate feed — `router.get('/all-users')` in src/routes/auth.js -/

/-- One step of the `shuffleArray` loop body
(src/routes/auth.js lines 209–215): `[array[i], array[j]] = [array[j],
array[i]]`, both reads before both writes. -/
def swapIdx (l : List (UserId × UserDoc)) (i j : Nat) :
    List (UserId × UserDoc) :=
  (l.set i (l.getD j default)).set j (l.getD i default)

/-- The `for (let i = length-1; i > 0; i--)` loop of `shuffleArray`: at
index `i`, `j = Math.floor(Math.random() * (i + 1))` is some value in
`[0, i]`, supplied here as `r % (i + 1)` from the stream `rs` of random
draws. -/
def fyShuffle : List (UserId × UserDoc) → Nat → List Nat →
    List (UserId × UserDoc)
  | l, 0, _ => l
  | l, _ + 1, [] => l
  | l, i + 1, r :: rs => fyShuffle (swapIdx l (i + 1) (r % (i + 2))) i rs

/-- Function `shuffleArray` (src/routes/auth.js lines 209–215), parameterised by the
stream of random draws. -/
def shuffleArray (l : List (UserId × UserDoc)) (rs : List Nat) :
    List (UserId × UserDoc) :=
  fyShuffle l (l.length - 1) rs

/-- The gender filter computed from `interestedIn`
(src/routes/auth.js lines 230–233): unknown or absent preferences yield the
empty filter. -/
def genderFilterOf : Option InterestedIn → List Gender
  | some .male => [Gender.male]
  | some .female => [Gender.female]
  | some .both => [Gender.male, Gender.female, Gender.other]
  | none => []

/-- The `User.find` filter of the all-users route
(src/routes/auth.js lines 244–266): id not excluded, name not the empty
string (the duplicate `$ne` keys of `name: { $ne: null, $ne: '' }` collapse
to `{ $ne: '' }` in JavaScript), `dob` and `interestedIn` present, gender
in the filter list, and the profile picture present or absent according to
`requirePicture`. -/
def feedMatch (excludeIds : List UserId) (genderFilter : List Gender)
    (requirePicture : Bool) (row : UserId × UserDoc) : Bool :=
  !(decide (row.1 ∈ excludeIds)) &&
  !(row.2.name == some "") &&
  row.2.dob.isSome &&
  (match row.2.gender with
   | some g => decide (g ∈ genderFilter)
   | none => false) &&
  row.2.interestedIn.isSome &&
  (if requirePicture then row.2.profilePicture.isSome
   else row.2.profilePicture.isNone)

/-- Route `router.get('/all-users')` (src/routes/auth.js lines 217–280): resolve
the requester (404 → `none`), build the exclusion set
`[...new Set([...liked, ...matches, currentUserId])]`, page through the
pictured and unpictured candidate pools separately
(`skip = (page-1)*limit`), shuffle each with its own random stream and
concatenate, pictured pool first. -/
def getFeed (db : DB) (currentUserId : UserId) (page limit : Nat)
    (rs1 rs2 : List Nat) : Option (List (UserId × UserDoc)) :=
  match findById db currentUserId with
  | none => none
  | some currentUser =>
      let genderFilter := genderFilterOf currentUser.interestedIn
      let excludeIds :=
        (currentUser.liked ++ currentUser.«matches» ++ [currentUserId]).dedup
      let skip := (page - 1) * limit
      let usersWithPicture :=
        ((db.filter (feedMatch excludeIds genderFilter true)).drop skip).take
          limit
      let usersWithoutPicture :=
        ((db.filter (feedMatch excludeIds genderFilter false)).drop skip).take
          limit
      some (shuffleArray usersWithPicture rs1 ++
        shuffleArray usersWithoutPicture rs2)

/-! ### Basic store lemmas -/

theorem findById_cons (k : UserId) (v : UserDoc) (tl : DB) (id : UserId) :
    findById ((k, v) :: tl) id = if k = id then some v else findById tl id := by
  by_cases h : k = id <;> simp [findById, h]

theorem updateById_cons (k : UserId) (v : UserDoc) (tl : DB) (id : UserId)
    (f : UserDoc → UserDoc) :
    updateById ((k, v) :: tl) id f =
      (if k = id then (k, f v) else (k, v)) :: updateById tl id f := by
  by_cases h : k = id <;> simp [updateById, h]

theorem findById_updateById_self (db : DB) (id : UserId)
    (f : UserDoc → UserDoc) :
    findById (updateById db id f) id = (findById db id).map f := by
  induction db with
  | nil => rfl
  | cons hd tl ih =>
      obtain ⟨k, v⟩ := hd
      by_cases h : k = id
      · simp [updateById_cons, findById_cons, h]
      · simp [updateById_cons, findById_cons, h, ih]

theorem findById_updateById_ne (db : DB) (id id' : UserId)
    (f : UserDoc → UserDoc) (h : id' ≠ id) :
    findById (updateById db id f) id' = findById db id' := by
  induction db with
  | nil => rfl
  | cons hd tl ih =>
      obtain ⟨k, v⟩ := hd
      by_cases h1 : k = id
      · have h2 : k ≠ id' := fun hk => h (hk ▸ h1)
        simp [updateById_cons, findById_cons, h1, h2, Ne.symm h, ih]
      · by_cases h2 : k = id'
        · simp [updateById_cons, findById_cons, h1, h2, h]
        · simp [updateById_cons, findById_cons, h1, h2, ih]

theorem mem_addToSet_self (l : List UserId) (x : UserId) :
    x ∈ addToSet l x := by
  by_cases h : x ∈ l <;> simp [addToSet, h]

theorem not_mem_pull_self (l : List UserId) (x : UserId) :
    x ∉ pull l x := by
  simp [pull]

end AmityTinder

namespace AmityTinder

theorem mem_swapIdx {x : UserId × UserDoc} {l : List (UserId × UserDoc)}
    {i j : Nat} (hi : i < l.length) (hj : j < l.length)
    (hx : x ∈ swapIdx l i j) : x ∈ l := by
  unfold swapIdx at hx
  rcases List.mem_or_eq_of_mem_set hx with hx1 | hx1
  · rcases List.mem_or_eq_of_mem_set hx1 with hx2 | hx2
    · exact hx2
    · subst hx2
      simp only [List.getD_eq_getElem?_getD, List.getElem?_eq_getElem hj,
        Option.getD_some]
      exact List.getElem_mem hj
  · subst hx1
    simp only [List.getD_eq_getElem?_getD, List.getElem?_eq_getElem hi,
      Option.getD_some]
    exact List.getElem_mem hi

theorem length_swapIdx (l : List (UserId × UserDoc)) (i j : Nat) :
    (swapIdx l i j).length = l.length := by
  simp [swapIdx]

theorem mem_fyShuffle {x : UserId × UserDoc} :
    ∀ (rs : List Nat) (i : Nat) (l : List (UserId × UserDoc)),
      i < l.length → x ∈ fyShuffle l i rs → x ∈ l := by
  intro rs
  induction rs with
  | nil =>
      intro i l _ hx
      cases i <;> simpa [fyShuffle] using hx
  | cons r rs ih =>
      intro i l hi hx
      cases i with
      | zero => simpa [fyShuffle] using hx
      | succ i =>
          have hj : r % (i + 2) < l.length :=
            lt_of_lt_of_le (Nat.mod_lt _ (by omega)) (by omega)
          have hlen : i < (swapIdx l (i + 1) (r % (i + 2))).length := by
            rw [length_swapIdx]; omega
          exact mem_swapIdx hi hj (ih i _ hlen (by simpa [fyShuffle] using hx))

theorem mem_shuffleArray {x : UserId × UserDoc}
    {l : List (UserId × UserDoc)} {rs : List Nat}
    (hx : x ∈ shuffleArray l rs) : x ∈ l := by
  unfold shuffleArray at hx
  match hl : l with
  | [] => simp [fyShuffle] at hx
  | y :: ys =>
      exact mem_fyShuffle rs _ _ (by simp) hx

/-! ### Behaviour of a left swipe -/

theorem swipe_left_eq (db : DB) (actor target : UserId) (a : UserDoc)
    (ha : findById db actor = some a) :
    swipe db actor target Direction.left =
      (updateById
        (updateById db actor (swipeUpdateActions Direction.left target))
        actor (fun u => { u with swipeLimit := u.swipeLimit - 1 }),
       SwipeOutcome.ok false) := by
  simp [swipe, swipeFallthrough, ha]

theorem findById_swipe_left (db : DB) (actor target : UserId) (a : UserDoc)
    (ha : findById db actor = some a) :
    findById (swipe db actor target Direction.left).1 actor =
      some { a with disliked := addToSet a.disliked target,
                    swipeLimit := a.swipeLimit - 1 } := by
  rw [swipe_left_eq db actor target a ha]
  simp [findById_updateById_self, ha, swipeUpdateActions]

/-! ### Claim C1 -/

/-- The stored document of user 0 in `c1db`: user 0 has already
right-swiped (liked) user 1. -/
def c1actor : UserDoc :=
  { liked := [1] }

/-- A two-user store in which user 0 has already liked user 1. -/
def c1db : DB :=
  [(0, c1actor), (1, {})]

/-- C1 counterexample: in `c1db` user 0's liked set contains user 1, and
after `swipe(0, 1, left)` user 1 is a member of BOTH user 0's liked set
and user 0's disliked set — the left-swipe branch adds to `disliked`
without pulling from `liked`, so the claimed disjointness invariant is
violated by a single swipe. -/
theorem c1_liked_disliked_overlap_after_left_swipe :
    1 ∈ (((findById c1db 0).getD default).liked) ∧
    1 ∈ (((findById (swipe c1db 0 1 Direction.left).1 0).getD default).liked) ∧
    1 ∈ (((findById (swipe c1db 0 1 Direction.left).1 0).getD default).disliked) := by
  decide

/-- C1 (amended): a left swipe leaves the actor's liked set unchanged while
adding the target to the disliked set, so whenever the target is already in
the actor's liked set, after `swipe(u, t, left)` the target belongs to both
sets and liked ∩ disliked ≠ ∅. -/
theorem left_swipe_breaks_disjointness (db : DB) (actor target : UserId)
    (a : UserDoc) (ha : findById db actor = some a)
    (hmem : target ∈ a.liked) :
    ∃ a', findById (swipe db actor target Direction.left).1 actor = some a' ∧
      a'.liked = a.liked ∧ target ∈ a'.liked ∧ target ∈ a'.disliked := by
  refine ⟨_, findById_swipe_left db actor target a ha, rfl, hmem, ?_⟩
  exact mem_addToSet_self _ _

/-- Witness for the amended C1 theorem at the concrete store `c1db`. -/
theorem left_swipe_breaks_disjointness_witness :
    ∃ a', findById (swipe c1db 0 1 Direction.left).1 0 = some a' ∧
      a'.liked = c1actor.liked ∧ 1 ∈ a'.liked ∧ 1 ∈ a'.disliked :=
  left_swipe_breaks_disjointness c1db 0 1 c1actor (by decide) (by decide)

/-! ### Claim C2 -/

/-- The stored document of user 10 in `c2db`: user 10 has already liked
user 11. -/
def c2actor : UserDoc :=
  { liked := [11] }

/-- The stored document of user 11 in `c2db`. -/
def c2target : UserDoc :=
  {}

/-- A two-user store in which user 10 has already liked user 11. -/
def c2db : DB :=
  [(10, c2actor), (11, c2target)]

/-- C2 counterexample: the claim says a left swipe removes the target from
the actor's liked set when present; in `c2db` user 10's liked set is `[11]`
both before and after `swipe(10, 11, left)` — the left-swipe update has no
`$pull` on `liked`. -/
theorem c2_left_swipe_does_not_remove_liked :
    (findById c2db 10).map UserDoc.liked = some [11] ∧
    (findById (swipe c2db 10 11 Direction.left).1 10).map UserDoc.liked =
      some [11] := by
  decide

/-- C2 (amended): for an existing actor and target, `swipe(actor, target,
left)` adds the target to the actor's disliked set idempotently
(`$addToSet`), leaves the actor's liked set unchanged (no removal),
decrements `swipeLimit` by exactly one with no lower bound, and reports
`matched = false`; no other field of the actor changes. -/
theorem left_swipe_spec (db : DB) (actor target : UserId) (a t : UserDoc)
    (ha : findById db actor = some a) (ht : findById db target = some t) :
    (swipe db actor target Direction.left).2 = SwipeOutcome.ok false ∧
    findById (swipe db actor target Direction.left).1 actor =
      some { a with disliked := addToSet a.disliked target,
                    swipeLimit := a.swipeLimit - 1 } := by
  have _hTargetExists := ht
  constructor
  · rw [swipe_left_eq db actor target a ha]
  · exact findById_swipe_left db actor target a ha

/-- Witness for the amended C2 theorem at the concrete store `c2db`. -/
theorem left_swipe_spec_witness :
    (swipe c2db 10 11 Direction.left).2 = SwipeOutcome.ok false ∧
    findById (swipe c2db 10 11 Direction.left).1 10 =
      some { c2actor with disliked := addToSet c2actor.disliked 11,
                          swipeLimit := c2actor.swipeLimit - 1 } :=
  left_swipe_spec c2db 10 11 c2actor c2target (by decide) (by decide)

/-! ### Claim C3 -/

/-- C3: if user A's liked set already contains B, then `swipe(B, A, right)`
reports `matched = true`, makes the match membership symmetric
(A ∈ matches(B) and B ∈ matches(A)), and removes each user from the other's
liked and disliked sets. -/
theorem mutual_swipe_creates_match (db : DB) (A B : UserId) (a b : UserDoc)
    (hA : findById db A = some a) (hB : findById db B = some b)
    (hmut : B ∈ a.liked) (hne : A ≠ B) :
    (swipe db B A Direction.right).2 = SwipeOutcome.ok true ∧
    ∃ a' b', findById (swipe db B A Direction.right).1 A = some a' ∧
      findById (swipe db B A Direction.right).1 B = some b' ∧
      A ∈ b'.«matches» ∧ B ∈ a'.«matches» ∧
      A ∉ b'.liked ∧ A ∉ b'.disliked ∧ B ∉ a'.liked ∧ B ∉ a'.disliked := by
  have hsw : swipe db B A Direction.right =
      (updateById (mutualMatchUpdate db B A) B
        (fun u => { u with swipeLimit := u.swipeLimit - 1 }),
       SwipeOutcome.ok true) := by
    simp [swipe, hA, hmut]
  have hBfind : findById (swipe db B A Direction.right).1 B =
      some { b with
        «matches» := addToSet b.«matches» A
        liked := pull b.liked A
        disliked := pull b.disliked A
        swipeLimit := b.swipeLimit - 1 } := by
    rw [hsw]
    unfold mutualMatchUpdate
    rw [findById_updateById_self,
      findById_updateById_ne _ _ _ _ (Ne.symm hne),
      findById_updateById_self, hB]
    rfl
  have hAfind : findById (swipe db B A Direction.right).1 A =
      some { a with
        «matches» := addToSet a.«matches» B
        liked := pull a.liked B
        disliked := pull a.disliked B } := by
    rw [hsw]
    unfold mutualMatchUpdate
    rw [findById_updateById_ne _ _ _ _ hne, findById_updateById_self,
      findById_updateById_ne _ _ _ _ hne, hA]
    rfl
  refine ⟨by rw [hsw], _, _, hAfind, hBfind, ?_, ?_, ?_, ?_, ?_, ?_⟩
  · exact mem_addToSet_self _ _
  · exact mem_addToSet_self _ _
  · exact not_mem_pull_self _ _
  · exact not_mem_pull_self _ _
  · exact not_mem_pull_self _ _
  · exact not_mem_pull_self _ _

/-- The stored document of user 30 in `c3db`: user 30 has already liked
user 31. -/
def c3userA : UserDoc :=
  { liked := [31] }

/-- The stored document of user 31 in `c3db`. -/
def c3userB : UserDoc :=
  {}

/-- A two-user store in which user 30 has already liked user 31, so a right
swipe by 31 on 30 is mutual. -/
def c3db : DB :=
  [(30, c3userA), (31, c3userB)]

/-- Witness for the C3 theorem at the concrete store `c3db`. -/
theorem mutual_swipe_creates_match_witness :
    (swipe c3db 31 30 Direction.right).2 = SwipeOutcome.ok true ∧
    ∃ a' b', findById (swipe c3db 31 30 Direction.right).1 30 = some a' ∧
      findById (swipe c3db 31 30 Direction.right).1 31 = some b' ∧
      30 ∈ b'.«matches» ∧ 31 ∈ a'.«matches» ∧
      30 ∉ b'.liked ∧ 30 ∉ b'.disliked ∧ 31 ∉ a'.liked ∧ 31 ∉ a'.disliked :=
  mutual_swipe_creates_match c3db 30 31 c3userA c3userB (by decide)
    (by decide) (by decide) (by decide)

/-! ### Claim C4 -/

/-- The requester in `feedExDb`: interested in women and having disliked
user 1. -/
def feedRequester : UserDoc :=
  { interestedIn := some InterestedIn.female, disliked := [1] }

/-- The candidate in `feedExDb`: a complete female profile with a picture,
previously disliked by the requester. -/
def feedCandidate : UserDoc :=
  { name := some "candidate", dob := some 0, gender := some Gender.female,
    interestedIn := some InterestedIn.both, profilePicture := some "pic" }

/-- A store in which the only candidate is one the requester disliked. -/
def feedExDb : DB :=
  [(0, feedRequester), (1, feedCandidate)]

/-- C4: a feed returned by `getFeed` never contains the requester, an id
the requester liked, or an id the requester matched; and ids that are
merely disliked are not excluded — in `feedExDb` the requester's feed is
exactly the disliked candidate 1. -/
theorem feed_never_contains_self_liked_matched (db : DB) (uid : UserId)
    (page limit : Nat) (rs1 rs2 : List Nat) (cu : UserDoc)
    (feed : List (UserId × UserDoc)) (hcu : findById db uid = some cu)
    (hfeed : getFeed db uid page limit rs1 rs2 = some feed) :
    (∀ p ∈ feed, p.1 ≠ uid ∧ p.1 ∉ cu.liked ∧ p.1 ∉ cu.«matches») ∧
    (((getFeed feedExDb 0 1 10 [] []).getD []).map Prod.fst = [1] ∧
      1 ∈ ((findById feedExDb 0).getD default).disliked) := by
  constructor
  · intro p hp
    simp only [getFeed, hcu, Option.some.injEq] at hfeed
    subst hfeed
    have hmem : p ∈ db.filter (feedMatch
        ((cu.liked ++ cu.«matches» ++ [uid]).dedup)
        (genderFilterOf cu.interestedIn) true) ∨
        p ∈ db.filter (feedMatch
        ((cu.liked ++ cu.«matches» ++ [uid]).dedup)
        (genderFilterOf cu.interestedIn) false) := by
      rcases List.mem_append.1 hp with h | h
      · exact Or.inl (List.drop_subset _ _ (List.take_subset _ _
          (mem_shuffleArray h)))
      · exact Or.inr (List.drop_subset _ _ (List.take_subset _ _
          (mem_shuffleArray h)))
    have hex : p.1 ∉ (cu.liked ++ cu.«matches» ++ [uid]).dedup := by
      rcases hmem with h | h <;>
      · have := (List.mem_filter.1 h).2
        simp only [feedMatch, Bool.and_eq_true, Bool.not_eq_true',
          decide_eq_false_iff_not] at this
        exact this.1.1.1.1.1
    rw [List.mem_dedup] at hex
    simp only [List.mem_append, List.mem_singleton, not_or] at hex
    exact ⟨hex.2, hex.1.1, hex.1.2⟩
  · decide

/-- Witness for the C4 theorem: the feed of `feedExDb` computes to
`[(1, feedCandidate)]` and the exclusion properties hold for it. -/
theorem feed_never_contains_self_liked_matched_witness :
    (∀ p ∈ [((1 : UserId), feedCandidate)],
      p.1 ≠ 0 ∧ p.1 ∉ feedRequester.liked ∧ p.1 ∉ feedRequester.«matches») ∧
    (((getFeed feedExDb 0 1 10 [] []).getD []).map Prod.fst = [1] ∧
      1 ∈ ((findById feedExDb 0).getD default).disliked) :=
  feed_never_contains_self_liked_matched feedExDb 0 1 10 [] []
    feedRequester [(1, feedCandidate)] (by decide) (by decide)

/-! ### Claim C5 -/

/-- A store with users 20 and 21 where 21 is NOT a match of 20. -/
def c5db : DB :=
  [(20, {}), (21, {})]

/-- C5 counterexample: `pin-match` never checks match membership, so
toggling a pin on the non-match 21 puts 21 into user 20's `pinnedMatches`
while 20's `matches` stays empty — `pinnedMatches ⊆ matches` is not an
invariant of the reachable states. -/
theorem c5_pin_non_match_breaks_subset :
    ((findById (pinMatch c5db 20 21).1 20).getD default).pinnedMatches =
      [21] ∧
    ((findById (pinMatch c5db 20 21).1 20).getD default).«matches» = [] := by
  decide

/-- C5 (amended): `togglePin(u, t)` preserves `pinnedMatches(u) ⊆
matches(u)` provided the toggled target is itself a match of `u`; without
that side condition the subset property can be destroyed (see the
counterexample). -/
theorem togglePin_preserves_subset_of_match (db : DB) (u t : UserId)
    (cu : UserDoc) (hu : findById db u = some cu)
    (ht : (findById db t).isSome)
    (hsub : ∀ x ∈ cu.pinnedMatches, x ∈ cu.«matches»)
    (hm : t ∈ cu.«matches») :
    ∃ cu', findById (pinMatch db u t).1 u = some cu' ∧
      ∀ x ∈ cu'.pinnedMatches, x ∈ cu'.«matches» := by
  obtain ⟨td, htd⟩ := Option.isSome_iff_exists.1 ht
  by_cases hp : t ∈ cu.pinnedMatches
  · refine ⟨{ cu with pinnedMatches := cu.pinnedMatches.erase t }, ?_, ?_⟩
    · simp [pinMatch, hu, htd, hp, findById_updateById_self]
    · intro x hx
      exact hsub x (List.mem_of_mem_erase hx)
  · refine ⟨{ cu with pinnedMatches := cu.pinnedMatches ++ [t] }, ?_, ?_⟩
    · simp [pinMatch, hu, htd, hp, findById_updateById_self]
    · intro x hx
      rcases List.mem_append.1 hx with h | h
      · exact hsub x h
      · rw [List.mem_singleton] at h
        subst h
        exact hm

/-- The stored document of user 40 in `c5db2`: 41 is a match of 40. -/
def c5actor : UserDoc :=
  { «matches» := [41] }

/-- A store where the pinned target really is a match. -/
def c5db2 : DB :=
  [(40, c5actor), (41, {})]

/-- Witness for the amended C5 theorem at the concrete store `c5db2`. -/
theorem togglePin_preserves_subset_of_match_witness :
    ∃ cu', findById (pinMatch c5db2 40 41).1 40 = some cu' ∧
      ∀ x ∈ cu'.pinnedMatches, x ∈ cu'.«matches» :=
  togglePin_preserves_subset_of_match c5db2 40 41 c5actor (by decide)
    (by decide) (by decide) (by decide)

/-! ### Claim C6 -/

/-- C6: starting a chat for the pair (A,B) twice returns the same chat and
leaves the collection unchanged on the second call, and starting it with
the participants reversed also returns that same chat — the `$all`
participants filter is order-independent. -/
theorem startChat_idempotent_symmetric (cdb : ChatDB) (A B : UserId)
    (f1 n1 f2 n2 f3 n3 : Nat) :
    (startChat (startChat cdb A B f1 n1).1 A B f2 n2).1 =
      (startChat cdb A B f1 n1).1 ∧
    (startChat (startChat cdb A B f1 n1).1 A B f2 n2).2.chatId =
      (startChat cdb A B f1 n1).2.chatId ∧
    (startChat (startChat cdb A B f1 n1).1 B A f3 n3).2.chatId =
      (startChat cdb A B f1 n1).2.chatId := by
  have hsymm : chatPairPred B A = chatPairPred A B := by
    funext c
    simp [chatPairPred, Bool.and_comm]
  cases h : cdb.find? (chatPairPred A B) with
  | some c =>
      simp [startChat, h, hsymm]
  | none =>
      have hc : chatPairPred A B
          { chatId := f1, participants := [A, B], messages := [],
            lastMessageAt := n1 } = true := by
        simp [chatPairPred]
      simp [startChat, h, hsymm, List.find?_append, hc]

/-! ### Claim C7 -/

/-- C7: posting a message whose content trims to the empty string fails
with the validation error and returns the chat collection — every chat's
message sequence and `lastMessageAt` — exactly as it was. -/
theorem postMessage_blank_is_rejected_without_mutation (cdb : ChatDB)
    (chatId : Nat) (userId : UserId) (content : String) (now : Nat)
    (h : jsTrim content = "") :
    postMessage cdb chatId userId content now =
      (cdb, PostOutcome.validationError) := by
  have h2 : (jsTrim content).isEmpty = true := by rw [h]; rfl
  simp [postMessage, h2]

/-- A one-message-free chat between users 1 and 2. -/
def c7chat : ChatDoc :=
  { chatId := 7, participants := [1, 2], messages := [], lastMessageAt := 0 }

/-- Witness for the C7 theorem: whitespace-only content on a concrete
one-chat store. -/
theorem postMessage_blank_is_rejected_without_mutation_witness :
    postMessage [c7chat] 7 1 "   " 5 =
      ([c7chat], PostOutcome.validationError) :=
  postMessage_blank_is_rejected_without_mutation [c7chat] 7 1 "   " 5
    (by decide)

/-! ### Claim C9 -/

/-- C9: on a login whose current date differs from the stored `lastLogin`
calendar date, the quotas are raised to the floors 20 and 1 (never
lowered) and `lastLogin` is set to the current date; on a same-date login
the document is unchanged. -/
theorem loginDailyReset_spec (u : UserDoc) (d : DateT) :
    (u.lastLogin.toDateString ≠ d.toDateString →
      loginDailyReset u d =
        { u with swipeLimit := max u.swipeLimit 20,
                 spinLimit := max u.spinLimit 1,
                 lastLogin := d }) ∧
    (u.lastLogin.toDateString = d.toDateString →
      loginDailyReset u d = u) := by
  constructor
  · intro h
    simp only [loginDailyReset, h, if_true, ne_eq, not_false_eq_true,
      if_pos]
    cases u with
    | mk name dob gender interestedIn profilePicture swipeLimit spinLimit
        liked disliked ms pinnedMatches lastLogin =>
        split_ifs with h1 h2 h2 <;> simp_all <;> omega
  · intro h
    simp [loginDailyReset, h]

/-- Witness for the C9 theorem: a user with depleted quotas logging in on a
later day gets exactly the floor quotas and the new `lastLogin`. -/
theorem loginDailyReset_spec_witness :
    loginDailyReset
      { swipeLimit := 3, spinLimit := 0, lastLogin := ⟨0, 9⟩ } ⟨1, 4⟩ =
      { ({ swipeLimit := 3, spinLimit := 0, lastLogin := ⟨0, 9⟩ } : UserDoc)
          with swipeLimit := max 3 20, spinLimit := max 0 1,
               lastLogin := ⟨1, 4⟩ } :=
  (loginDailyReset_spec
    { swipeLimit := 3, spinLimit := 0, lastLogin := ⟨0, 9⟩ } ⟨1, 4⟩).1
    (by decide)

/-! ### Claim C10 -/

/-- C10: a successful connect-user call leaves the caller's document (all
of its sets) untouched and changes the winner only by adding the caller to
the winner's `matches` when absent — so it can create a one-sided match
visible only on the winner's side. -/
theorem connectUser_only_touches_winner_matches (db : DB)
    (callerId winnerId : UserId) (wdoc cdoc : UserDoc)
    (hw : findById db winnerId = some wdoc)
    (hc : findById db callerId = some cdoc) (hne : callerId ≠ winnerId) :
    (connectUser db callerId winnerId).2 = ConnectOutcome.ok ∧
    findById (connectUser db callerId winnerId).1 callerId = some cdoc ∧
    findById (connectUser db callerId winnerId).1 winnerId =
      some { wdoc with «matches» :=
        if callerId ∈ wdoc.«matches» then wdoc.«matches»
        else wdoc.«matches» ++ [callerId] } := by
  by_cases hmem : callerId ∈ wdoc.«matches»
  · simp [connectUser, hw, hc, hmem]
  · have hceq : connectUser db callerId winnerId =
        (updateById db winnerId
          (fun _ => { wdoc with
            «matches» := wdoc.«matches» ++ [callerId] }),
         ConnectOutcome.ok) := by
      simp [connectUser, hw, hc, hmem]
    rw [hceq]
    refine ⟨rfl, ?_, ?_⟩
    · rw [findById_updateById_ne _ _ _ _ hne, hc]
    · rw [findById_updateById_self, hw]
      simp [hmem]

/-! ### Claim C8 -/

theorem pinMatch_found (db : DB) (u t : UserId) (cu : UserDoc)
    (hu : findById db u = some cu) (ht : (findById db t).isSome) :
    pinMatch db u t =
      if t ∈ cu.pinnedMatches then
        (updateById db u
          (fun _ => { cu with
            pinnedMatches := cu.pinnedMatches.erase t }),
         PinOutcome.unpinned (cu.pinnedMatches.erase t))
      else
        (updateById db u
          (fun _ => { cu with
            pinnedMatches := cu.pinnedMatches ++ [t] }),
         PinOutcome.pinned (cu.pinnedMatches ++ [t])) := by
  obtain ⟨td, htd⟩ := Option.isSome_iff_exists.1 ht
  simp [pinMatch, hu, htd]

/-- C8: toggling a pin twice on the same (user, target) pair restores the
user's `pinnedMatches` as a set, for any reachable `pinnedMatches` array
(the pin route never inserts duplicates, so the target occurs at most
once). -/
theorem togglePin_twice_restores_set (db : DB) (u t : UserId)
    (cu : UserDoc) (hu : findById db u = some cu)
    (ht : (findById db t).isSome)
    (hcount : cu.pinnedMatches.count t ≤ 1) :
    ∃ cu', findById (pinMatch (pinMatch db u t).1 u t).1 u = some cu' ∧
      ∀ x, x ∈ cu'.pinnedMatches ↔ x ∈ cu.pinnedMatches := by
  by_cases hp : t ∈ cu.pinnedMatches
  · have hdb1 : (pinMatch db u t).1 =
        updateById db u
          (fun _ => { cu with
            pinnedMatches := cu.pinnedMatches.erase t }) := by
      rw [pinMatch_found db u t cu hu ht, if_pos hp]
    have hu1 : findById (pinMatch db u t).1 u =
        some { cu with pinnedMatches := cu.pinnedMatches.erase t } := by
      rw [hdb1, findById_updateById_self, hu]
      rfl
    have ht1 : (findById (pinMatch db u t).1 t).isSome := by
      rw [hdb1]
      by_cases htu : t = u
      · subst htu
        rw [findById_updateById_self]
        obtain ⟨td, htd⟩ := Option.isSome_iff_exists.1 ht
        rw [htd]
        rfl
      · rw [findById_updateById_ne _ _ _ _ htu]
        exact ht
    have hnot : t ∉ cu.pinnedMatches.erase t := by
      intro hmem
      have h1 : 0 < (cu.pinnedMatches.erase t).count t :=
        List.count_pos_iff.2 hmem
      have h2 : (cu.pinnedMatches.erase t).count t =
          cu.pinnedMatches.count t - 1 := List.count_erase_self t _
      omega
    have hstep2 : pinMatch (pinMatch db u t).1 u t =
        (updateById (pinMatch db u t).1 u
          (fun _ => { cu with
            pinnedMatches := cu.pinnedMatches.erase t ++ [t] }),
         PinOutcome.pinned (cu.pinnedMatches.erase t ++ [t])) := by
      rw [pinMatch_found (pinMatch db u t).1 u t
        { cu with pinnedMatches := cu.pinnedMatches.erase t } hu1 ht1,
        if_neg hnot]
    have hdb2 : (pinMatch (pinMatch db u t).1 u t).1 =
        updateById (pinMatch db u t).1 u
          (fun _ => { cu with
            pinnedMatches := cu.pinnedMatches.erase t ++ [t] }) := by
      rw [hstep2]
    have hu2 : findById (pinMatch (pinMatch db u t).1 u t).1 u =
        some { cu with
          pinnedMatches := cu.pinnedMatches.erase t ++ [t] } := by
      rw [hdb2, findById_updateById_self, hu1]
      rfl
    refine ⟨_, hu2, fun x => ?_⟩
    constructor
    · intro hx
      rcases List.mem_append.1 hx with hx1 | hx1
      · exact List.mem_of_mem_erase hx1
      · rw [List.mem_singleton] at hx1
        subst hx1
        exact hp
    · intro hx
      by_cases hxt : x = t
      · subst hxt
        exact List.mem_append.2 (Or.inr (List.mem_singleton.2 rfl))
      · exact List.mem_append.2 (Or.inl ((List.mem_erase_of_ne hxt).2 hx))
  · have hdb1 : (pinMatch db u t).1 =
        updateById db u
          (fun _ => { cu with
            pinnedMatches := cu.pinnedMatches ++ [t] }) := by
      rw [pinMatch_found db u t cu hu ht, if_neg hp]
    have hu1 : findById (pinMatch db u t).1 u =
        some { cu with pinnedMatches := cu.pinnedMatches ++ [t] } := by
      rw [hdb1, findById_updateById_self, hu]
      rfl
    have ht1 : (findById (pinMatch db u t).1 t).isSome := by
      rw [hdb1]
      by_cases htu : t = u
      · subst htu
        rw [findById_updateById_self]
        obtain ⟨td, htd⟩ := Option.isSome_iff_exists.1 ht
        rw [htd]
        rfl
      · rw [findById_updateById_ne _ _ _ _ htu]
        exact ht
    have hin : t ∈ cu.pinnedMatches ++ [t] :=
      List.mem_append.2 (Or.inr (List.mem_singleton.2 rfl))
    have hstep2 : pinMatch (pinMatch db u t).1 u t =
        (updateById (pinMatch db u t).1 u
          (fun _ => { cu with
            pinnedMatches := (cu.pinnedMatches ++ [t]).erase t }),
         PinOutcome.unpinned ((cu.pinnedMatches ++ [t]).erase t)) := by
      rw [pinMatch_found (pinMatch db u t).1 u t
        { cu with pinnedMatches := cu.pinnedMatches ++ [t] } hu1 ht1,
        if_pos hin]
    have herase : (cu.pinnedMatches ++ [t]).erase t = cu.pinnedMatches := by
      rw [List.erase_append_right _ hp]
      simp
    have hdb2 : (pinMatch (pinMatch db u t).1 u t).1 =
        updateById (pinMatch db u t).1 u
          (fun _ => { cu with
            pinnedMatches := (cu.pinnedMatches ++ [t]).erase t }) := by
      rw [hstep2]
    have hu2 : findById (pinMatch (pinMatch db u t).1 u t).1 u =
        some { cu with
          pinnedMatches := (cu.pinnedMatches ++ [t]).erase t } := by
      rw [hdb2, findById_updateById_self, hu1]
      rfl
    rw [herase] at hu2
    exact ⟨_, hu2, fun x => Iff.rfl⟩

/-- The stored document of user 70 in `c8db`: 71 is pinned. -/
def c8actor : UserDoc :=
  { «matches» := [71], pinnedMatches := [71] }

/-- A store for exercising the double-toggle property. -/
def c8db : DB :=
  [(70, c8actor), (71, {})]

/-- Witness for the C8 theorem at the concrete store `c8db`. -/
theorem togglePin_twice_restores_set_witness :
    ∃ cu', findById (pinMatch (pinMatch c8db 70 71).1 70 71).1 70 =
        some cu' ∧
      ∀ x, x ∈ cu'.pinnedMatches ↔ x ∈ c8actor.pinnedMatches :=
  togglePin_twice_restores_set c8db 70 71 c8actor (by decide) (by decide)
    (by decide)

/-- The winner's document in `c10db`. -/
def c10winner : UserDoc :=
  { «matches» := [60], liked := [51] }

/-- The caller's document in `c10db`. -/
def c10caller : UserDoc :=
  { liked := [52], pinnedMatches := [] }

/-- A store with a caller 50 and a winner 51. -/
def c10db : DB :=
  [(50, c10caller), (51, c10winner)]

/-- Witness for the C10 theorem at the concrete store `c10db`. -/
theorem connectUser_only_touches_winner_matches_witness :
    (connectUser c10db 50 51).2 = ConnectOutcome.ok ∧
    findById (connectUser c10db 50 51).1 50 = some c10caller ∧
    findById (connectUser c10db 50 51).1 51 =
      some { c10winner with «matches» :=
        if 50 ∈ c10winner.«matches» then c10winner.«matches»
        else c10winner.«matches» ++ [50] } :=
  connectUser_only_touches_winner_matches c10db 50 51 c10winner c10caller
    (by decide) (by decide) (by decide)

end AmityTinder
